import Mathlib

/-!
BCRMS-Tokenization: settlement engine.

A shallow embedding of the settlement engine of the repository
(`settlement-engine/src/nav.js`, `settlement-engine/insurance.js`,
`settlement-engine/src/index.js`, `settlement-engine/src/storage.js`,
`settlement-engine/scripts/adminProcessRedemption.js`, `audits/log-writer.js`)
and the properties proved about it.

JavaScript numbers.
A JavaScript `Number` is an IEEE-754 binary64 value.  The finite ones are
rationals, so a `Number` is embedded as a `ℚ` and every arithmetic operation
of the source is the exact operation followed by `fl`, rounding to the nearest
value with a 53-bit significand, ties to even.  The exponent range is taken
unbounded: overflow to `Infinity`, `NaN` and gradual underflow lie outside the
embedding.  A `BigInt` is an `Int`; `BigInt` division truncates (`Int.tdiv`).
-/

/-! ## Definitions -/

/-- Round a rational to the nearest integer, a tie going to the even neighbour. -/
def roundHalfEven (y : ℚ) : ℤ :=
  if y - ⌊y⌋ < 1 / 2 then ⌊y⌋
  else if 1 / 2 < y - ⌊y⌋ then ⌊y⌋ + 1
  else if ⌊y⌋ % 2 = 0 then ⌊y⌋ else ⌊y⌋ + 1

/-- Exponent of the spacing of binary64 values around `x`: a value in
`[2^e, 2^(e+1))` has 53 significant bits, the last one worth `2^(e-52)`. -/
def ulpExp (x : ℚ) : ℤ := Int.log 2 |x| - 52

/-- The binary64 value nearest to `x` (round to nearest, ties to even). -/
def fl (x : ℚ) : ℚ := (roundHalfEven (x / (2 : ℚ) ^ ulpExp x) : ℚ) * (2 : ℚ) ^ ulpExp x

/-- JavaScript `a + b` on Numbers. -/
def jsAdd (a b : ℚ) : ℚ := fl (a + b)

/-- JavaScript `a - b` on Numbers. -/
def jsSub (a b : ℚ) : ℚ := fl (a - b)

/-- JavaScript `a * b` on Numbers. -/
def jsMul (a b : ℚ) : ℚ := fl (a * b)

/-- JavaScript `a / b` on Numbers, for a divisor other than zero. -/
def jsDiv (a b : ℚ) : ℚ := fl (a / b)

/-- A decimal literal of the source text, such as `0.02`, read as a Number. -/
def jsLit (q : ℚ) : ℚ := fl q

/-- JavaScript `Math.round`: the nearest integer, a tie going towards `+∞`. -/
def mathRound (x : ℚ) : ℤ := ⌊x + 1 / 2⌋

/-- JavaScript `Math.max` of two Numbers. -/
def mathMax (a b : ℚ) : ℚ := if a < b then b else a

/-! ### JavaScript strings -/

/-- UTF-16 code units of a character. -/
def utf16 (c : Char) : List Nat :=
  if c.toNat < 0x10000 then [c.toNat]
  else [0xD800 + (c.toNat - 0x10000) / 0x400, 0xDC00 + (c.toNat - 0x10000) % 0x400]

/-- A JavaScript string is a sequence of UTF-16 code units. -/
def codeUnits (s : String) : List Nat := s.toList.flatMap utf16

/-- JavaScript `s.includes(sub)`. -/
def jsIncludes (s sub : String) : Bool := decide (codeUnits sub <:+: codeUnits s)

/-- JavaScript `s.endsWith(suf)`. -/
def jsEndsWith (s suf : String) : Bool := (codeUnits suf).isSuffixOf (codeUnits s)

/-- JavaScript `s.toLowerCase()`, on the ASCII letters. -/
def jsToLowerCase (s : String) : String := ⟨s.toList.map Char.toLower⟩

/-- The order of `Array.prototype.sort()` without a comparator:
strings compared by UTF-16 code units. -/
def jsStrLe (a b : String) : Prop := codeUnits a ≤ codeUnits b

instance (a b : String) : Decidable (jsStrLe a b) :=
  inferInstanceAs (Decidable (codeUnits a ≤ codeUnits b))

/-- JavaScript `xs.slice(0, n)` for an integer `n`: a negative `n` counts from the end. -/
def jsSlice0 {α : Type} (xs : List α) (n : Int) : List α :=
  if 0 ≤ n then xs.take n.toNat else xs.take (xs.length - (-n).toNat)

/-! ### `settlement-engine/src/nav.js` -/

/-- One file of `BRRMS_DATA_DIR`: its name and the fields of the JSON object it
holds that `computeNavPerToken` reads.  `netRevenue` and `tokenizedPercentBps`
are the finite Numbers that `Number(data.netRevenue || 0)` and
`Number(data.tokenizedPercentBps || 0)` convert; a field that is absent is
`none` and reads as 0.  A directory is the list of its files in the order
`readdirSync` returns them. -/
structure BrrmsFile where
  name : String
  businessId : String
  netRevenue : Option ℚ
  tokenizedPercentBps : Option ℚ
deriving DecidableEq

/-- The three `throw` statements of `computeNavPerToken`. -/
inductive NavError where
  | zeroSupply
  | noFiles
  | noRecords
deriving DecidableEq, Repr

/-- The variables the `for` loop of `computeNavPerToken` updates; `totalWeight`
counts the records and is exact as a Number. -/
structure LoopState where
  totalNetRevenue : ℚ
  totalWeight : Nat
  tokenizedPercentBps : ℚ
deriving DecidableEq

/-- One iteration of `for (const file of selected)`. -/
def loopStep (businessId : String) (st : LoopState) (file : BrrmsFile) : LoopState :=
  if file.businessId ≠ businessId then st
  else
    { totalNetRevenue := jsAdd st.totalNetRevenue (file.netRevenue.getD 0)
      totalWeight := st.totalWeight + 1
      tokenizedPercentBps := file.tokenizedPercentBps.getD 0 }

/-- The whole loop, from `totalNetRevenue = 0`, `totalWeight = 0`, `tokenizedPercentBps = 0`. -/
def runLoop (businessId : String) (selected : List BrrmsFile) : LoopState :=
  selected.foldl (loopStep businessId) ⟨0, 0, 0⟩

/-- The files named `*.json` (any case) whose name contains the business id. -/
def businessFiles (dir : List BrrmsFile) (businessId : String) : List BrrmsFile :=
  (dir.filter (fun f => jsEndsWith (jsToLowerCase f.name) ".json")).filter
    (fun f => jsIncludes f.name businessId)

/-- The order in which `sort()` puts two files: by name. -/
def nameLe (a b : BrrmsFile) : Prop := jsStrLe a.name b.name

instance : DecidableRel nameLe := fun a b =>
  inferInstanceAs (Decidable (jsStrLe a.name b.name))

instance : IsTotal BrrmsFile nameLe :=
  ⟨fun a b => le_total (codeUnits a.name) (codeUnits b.name)⟩

instance : IsTrans BrrmsFile nameLe :=
  ⟨fun _ _ _ hab hbc => le_trans (α := List Nat) hab hbc⟩

/-- `businessFiles.sort().reverse()`: by file name, descending. -/
def sortedDesc (files : List BrrmsFile) : List BrrmsFile :=
  (files.insertionSort nameLe).reverse

/-- `sorted.slice(0, months)`: the files the loop reads. -/
def selectWindow (dir : List BrrmsFile) (fundKey : String) (months : Int) : List BrrmsFile :=
  jsSlice0 (sortedDesc (businessFiles dir ("fund" ++ fundKey))) months

/-- `BigInt(Math.round(tokenizedPortion * 100))` from the loop's result:
the tokenized portion in cents. -/
def tokenizedBig (st : LoopState) : Int :=
  let avgNetRevenue := jsDiv st.totalNetRevenue st.totalWeight
  let tokenizedPortion := jsDiv (jsMul avgNetRevenue st.tokenizedPercentBps) 10000
  mathRound (jsMul tokenizedPortion 100)

/-- `computeNavPerToken(fundKey, months, totalSupply)` over the directory `dir`. -/
def computeNavPerToken (dir : List BrrmsFile) (fundKey : String) (months : Int)
    (totalSupply : Int) : Except NavError Int :=
  if totalSupply = 0 then .error .zeroSupply
  else if (businessFiles dir ("fund" ++ fundKey)).length = 0 then .error .noFiles
  else
    let st := runLoop ("fund" ++ fundKey) (selectWindow dir fundKey months)
    if st.totalWeight = 0 then .error .noRecords
    else
      let scale : Int := 10 ^ 18
      let tokenizedScaled := (tokenizedBig st * scale).tdiv 100
      .ok (tokenizedScaled.tdiv totalSupply)


/-! ### `settlement-engine/insurance.js` -/

/-- The object `riskFactors` of an `insurance_exposure.json`: the two metrics
the scoring reads, each possibly absent, and the other named metrics. -/
structure RiskFactors where
  revenueVolatility : Option ℚ
  industryRiskTier : Option ℚ
  others : List (String × ℚ)
deriving DecidableEq

/-- The empty object `{}`. -/
def RiskFactors.empty : RiskFactors := ⟨none, none, []⟩

/-- The JSON object of an `insurance_exposure.json`; `riskFactors` may be absent. -/
structure Exposure where
  riskFactors : Option RiskFactors
deriving DecidableEq

/-- The object `getInsuranceAdjustment` returns. -/
structure InsuranceAdjustment where
  riskScore : ℚ
  adjustmentMultiplier : ℚ
  factors : RiskFactors
  note : String
deriving DecidableEq

/-- JavaScript `x > c` for a property `x` that may be absent: `undefined > c` is false. -/
def jsGt (x : Option ℚ) (c : ℚ) : Bool :=
  match x with
  | none => false
  | some v => decide (c < v)

/-- JavaScript truthiness of a numeric property that may be absent. -/
def jsTruthy (x : Option ℚ) : Bool :=
  match x with
  | none => false
  | some v => decide (v ≠ 0)

/-- `getInsuranceAdjustment(businessId)`; `uploads businessId` is the content of
`business_uploads/<businessId>/insurance_exposure.json`, `none` when the file
does not exist. -/
def getInsuranceAdjustment (uploads : String → Option Exposure) (businessId : String) :
    InsuranceAdjustment :=
  match uploads businessId with
  | none =>
    { riskScore := 0
      adjustmentMultiplier := 1
      factors := RiskFactors.empty
      note := "No insurance_exposure.json, neutral multiplier applied" }
  | some exposure =>
    let factors := exposure.riskFactors.getD RiskFactors.empty
    let riskScore : ℚ := 0
    let riskScore :=
      if jsGt factors.revenueVolatility (jsLit (20 / 100)) then jsAdd riskScore 3
      else if jsGt factors.revenueVolatility (jsLit (10 / 100)) then jsAdd riskScore 2
      else if jsGt factors.revenueVolatility (jsLit (5 / 100)) then jsAdd riskScore 1
      else riskScore
    let riskScore :=
      if jsTruthy factors.industryRiskTier then
        jsAdd riskScore (factors.industryRiskTier.getD 0)
      else riskScore
    let adjustmentMultiplier :=
      mathMax (jsLit (85 / 100)) (jsSub 1 (jsMul riskScore (jsLit (2 / 100))))
    { riskScore := riskScore
      adjustmentMultiplier := adjustmentMultiplier
      factors := factors
      note := "Insurance risk adjustment applied" }

/-- The bucket of the specification: 3 if `v > 0.20`, else 2 if `v > 0.10`,
else 1 if `v > 0.05`, else 0. -/
def specBucket (v : ℚ) : ℚ :=
  if v > jsLit (20 / 100) then 3
  else if v > jsLit (10 / 100) then 2
  else if v > jsLit (5 / 100) then 1
  else 0

/-- The reference definition of the specification, as the triple
(riskScore, adjustmentMultiplier, factors): neutral without a profile; with one,
`riskScore = bucket(revenueVolatility) + industryRiskTier` (0 when absent) and
`adjustmentMultiplier = max(0.85, 1.0 - riskScore * 0.02)`, in Number arithmetic. -/
def specInsuranceAdjustment (profile : Option RiskFactors) : ℚ × ℚ × RiskFactors :=
  match profile with
  | none => (0, 1, RiskFactors.empty)
  | some f =>
    let riskScore := jsAdd ((f.revenueVolatility.map specBucket).getD 0) (f.industryRiskTier.getD 0)
    (riskScore, mathMax (jsLit (85 / 100)) (jsSub 1 (jsMul riskScore (jsLit (2 / 100)))), f)

/-- Example uploads: every business has revenueVolatility 0.22 and industryRiskTier 1. -/
def uploadsExample : String → Option Exposure :=
  fun _ => some ⟨some ⟨some (jsLit (22 / 100)), some 1, []⟩⟩

/-- The object the handler builds from a `RedemptionProcessed` event and stores. -/
structure PayoutRecord where
  fundKey : String
  holder : String
  periodId : String
  amountTokens : String
  navPerToken : String
  grossValue : String
  penaltyAmount : String
  liquidityFeeAmount : String
  discountAmount : String
  netPayout : String
  eventTimestamp : String
  txHash : String
deriving DecidableEq

/-- What `PAYOUT_LOG_FILE` holds: no file, only white space, a JSON array of
records, or something else (text `JSON.parse` rejects, or a value without `push`). -/
inductive PayoutLogContent where
  | absent
  | blank
  | array (records : List PayoutRecord)
  | other
deriving DecidableEq

/-- The payout log on disk: its content, and whether `writeFileSync` can write it. -/
structure PayoutLog where
  content : PayoutLogContent
  writable : Bool
deriving DecidableEq

/-- The exceptions `appendPayoutRecord` can raise. -/
inductive StorageError where
  | parseFailed
  | writeFailed
deriving DecidableEq, Repr

/-- `appendPayoutRecord(record)`: read the array, push the record, write the array back. -/
def appendPayoutRecord (log : PayoutLog) (record : PayoutRecord) : Except StorageError PayoutLog :=
  let current : Except StorageError (List PayoutRecord) :=
    match log.content with
    | .absent => .ok []
    | .blank => .ok []
    | .array records => .ok records
    | .other => .error .parseFailed
  match current with
  | .error e => .error e
  | .ok current =>
    if log.writable then .ok { log with content := .array (current ++ [record]) }
    else .error .writeFailed

/-- The records a payout log holds; none when there is no array. -/
def PayoutLog.records (log : PayoutLog) : List PayoutRecord :=
  match log.content with
  | .array records => records
  | _ => []

/-- The arguments of the `RedemptionProcessed` callback: the `uint256` values
of the event as `BigInt`s, the holder address and the transaction hash of the log. -/
structure RedemptionEvent where
  holder : String
  periodId : Nat
  amountTokens : Nat
  navPerToken : Nat
  grossValue : Nat
  penaltyAmount : Nat
  liquidityFeeAmount : Nat
  discountAmount : Nat
  netPayout : Nat
  eventTimestamp : Nat
  transactionHash : String
deriving DecidableEq

/-- The `record` object the callback builds; `toString()` of a `BigInt` is its decimal text. -/
def buildRecord (key : String) (ev : RedemptionEvent) : PayoutRecord :=
  { fundKey := key
    holder := ev.holder
    periodId := toString ev.periodId
    amountTokens := toString ev.amountTokens
    navPerToken := toString ev.navPerToken
    grossValue := toString ev.grossValue
    penaltyAmount := toString ev.penaltyAmount
    liquidityFeeAmount := toString ev.liquidityFeeAmount
    discountAmount := toString ev.discountAmount
    netPayout := toString ev.netPayout
    eventTimestamp := toString ev.eventTimestamp
    txHash := ev.transactionHash }

/-- State the callback acts on: the payout log and the calls of `executePayout`
made so far, in order, each with its argument. -/
structure EngineState where
  log : PayoutLog
  payouts : List PayoutRecord
deriving DecidableEq

/-- `executePayout(record)` of `payout.js`: it only logs the intent; the call is recorded. -/
def executePayout (st : EngineState) (record : PayoutRecord) : EngineState :=
  { st with payouts := st.payouts ++ [record] }

/-- The callback registered for `RedemptionProcessed` on the contract of fund `key`:
the state it leaves and the exception that ended it, if any. -/
def onRedemptionProcessed (key : String) (st : EngineState) (ev : RedemptionEvent) :
    EngineState × Option StorageError :=
  let record := buildRecord key ev
  match appendPayoutRecord st.log record with
  | .error e => (st, some e)
  | .ok log => (executePayout { st with log := log } record, none)

/-- Identity key of a record: (txHash, fundKey, periodId, holder). -/
def identityKey (r : PayoutRecord) : String × String × String × String :=
  (r.txHash, r.fundKey, r.periodId, r.holder)

/-- Number of records of a list with the given identity key. -/
def countKey (k : String × String × String × String) (rs : List PayoutRecord) : Nat :=
  (rs.filter (fun r => identityKey r = k)).length

/-- Example event: a redemption of holder `0xA1` in period 7. -/
def eventFirst : RedemptionEvent :=
  ⟨"0xA1", 7, 100, 22, 2200, 0, 0, 0, 2200, 1700000000, "0xT1"⟩

/-- The same event delivered again, with another timestamp. -/
def eventAgain : RedemptionEvent :=
  ⟨"0xA1", 7, 100, 22, 2200, 0, 0, 0, 2200, 1700000060, "0xT1"⟩

/-! ### `audits/log-writer.js` -/

/-- A value read from a property of the redemption result: a Number, `NaN`, or
`undefined` when the object has no such property. -/
inductive JsVal where
  | undefined
  | number (q : ℚ)
  | nan
deriving DecidableEq

/-- The object `processRedemption` returns: the value of each property. -/
abbrev RedemptionResult := String → JsVal

/-- JavaScript `x * m` for a Number `m`: `undefined * m` and `NaN * m` are `NaN`. -/
def jsTimes (x : JsVal) (m : ℚ) : JsVal :=
  match x with
  | .number v => .number (jsMul v m)
  | _ => .nan

/-- The insurance hook of `main`:
`redemptionResult.adjustedRedemptionValue = redemptionResult.redemptionValue * insurance.adjustmentMultiplier`. -/
def applyInsuranceAdjustment (redemptionResult : RedemptionResult)
    (insurance : InsuranceAdjustment) : RedemptionResult :=
  let adjustedValue := jsTimes (redemptionResult "redemptionValue") insurance.adjustmentMultiplier
  Function.update redemptionResult "adjustedRedemptionValue" adjustedValue

/-! ### Notions used to state the properties of `computeNavPerToken` -/

/-- The records of the fund among the selected files, in the order the loop
reads them: the files the `continue` of the loop does not skip. -/
def windowRecords (dir : List BrrmsFile) (fundKey : String) (months : Int) : List BrrmsFile :=
  (selectWindow dir fundKey months).filter (fun f => f.businessId = "fund" ++ fundKey)

/-- Sum of the net revenues of the records, accumulated as the loop does. -/
def sumNetRevenue (recs : List BrrmsFile) (start : ℚ) : ℚ :=
  recs.foldl (fun acc f => jsAdd acc (f.netRevenue.getD 0)) start

/-- Percentage of the last record of the list, `d` for an empty list. -/
def lastPercentBps (recs : List BrrmsFile) (d : ℚ) : ℚ :=
  (recs.getLast?.map (fun f => f.tokenizedPercentBps.getD 0)).getD d

/-- Tokenized portion in cents that the code derives from the records of a window. -/
def windowCents (recs : List BrrmsFile) : Int :=
  tokenizedBig ⟨sumNetRevenue recs 0, recs.length, lastPercentBps recs 0⟩

/-- Example directory: one record of fund "I" and one of fund "II" for the same
month; the name of the second contains `fundI` too. -/
def navCollisionDir : List BrrmsFile :=
  [⟨"2025-01-fundI.json", "fundI", some 100000, some 2000⟩,
   ⟨"2025-01-fundII.json", "fundII", some 50000, some 1000⟩]

/-- Example directory: fund "I" with 1000 bps in January and 2000 bps in February. -/
def navPercentDir : List BrrmsFile :=
  [⟨"fundI_2025-01.json", "fundI", some 100000, some 1000⟩,
   ⟨"fundI_2025-02.json", "fundI", some 120000, some 2000⟩]

/-! ### Notions used to state the properties of the stores -/

/-- The multiplier as a function of the risk score:
`Math.max(0.85, 1.0 - riskScore * 0.02)`. -/
def multiplierOf (riskScore : ℚ) : ℚ :=
  mathMax (jsLit (85 / 100)) (jsSub 1 (jsMul riskScore (jsLit (2 / 100))))

/-- Example uploads: every business has revenueVolatility 0.22 and industryRiskTier 5. -/
def uploadsHighRisk : String → Option Exposure :=
  fun _ => some ⟨some ⟨some (jsLit (22 / 100)), some 5, []⟩⟩

/-! ## Theorems -/

/-! ### Rounding to binary64 -/

theorem roundHalfEven_intCast (m : ℤ) : roundHalfEven (m : ℚ) = m := by
  simp [roundHalfEven]

theorem roundHalfEven_of_near (y : ℚ) (m : ℤ) (h1 : (m : ℚ) - 1 / 2 < y) (h2 : y < m + 1 / 2) :
    roundHalfEven y = m := by
  unfold roundHalfEven
  rcases le_or_lt (m : ℚ) y with h | h
  · have hf : ⌊y⌋ = m := by
      rw [Int.floor_eq_iff]; constructor <;> linarith
    rw [hf, if_pos (by linarith)]
  · have hf : ⌊y⌋ = m - 1 := by
      rw [Int.floor_eq_iff]; push_cast; constructor <;> linarith
    rw [hf]; push_cast
    rw [if_neg (by linarith), if_pos (by linarith)]; ring

theorem roundHalfEven_nonneg (y : ℚ) (h : 0 ≤ y) : 0 ≤ roundHalfEven y := by
  have hf : 0 ≤ ⌊y⌋ := Int.floor_nonneg.mpr h
  unfold roundHalfEven
  split_ifs <;> omega

theorem roundHalfEven_le_intCast (y : ℚ) (K : ℤ) (h : y ≤ K) : roundHalfEven y ≤ K := by
  have hf : ⌊y⌋ ≤ K := by
    have := Int.floor_le y
    exact_mod_cast (this.trans h)
  rcases hf.lt_or_eq with hlt | heq
  · unfold roundHalfEven
    split_ifs <;> omega
  · have hy : y = K := by
      have := Int.floor_le y
      rw [heq] at this
      exact le_antisymm h this
    rw [hy, roundHalfEven_intCast]

theorem roundHalfEven_nonpos_of_le_half (y : ℚ) (h : y ≤ 1 / 2) : roundHalfEven y ≤ 0 := by
  have hf : ⌊y⌋ ≤ 0 := by
    have h1 : y < ((0 : ℤ) : ℚ) + 1 := by push_cast; linarith
    have := Int.floor_lt.mpr (show y < ((1 : ℤ) : ℚ) by push_cast; linarith)
    omega
  rcases hf.lt_or_eq with hlt | heq
  · unfold roundHalfEven
    split_ifs <;> omega
  · unfold roundHalfEven
    rw [heq]
    by_cases h1 : y - ((0 : ℤ) : ℚ) < 1 / 2
    · rw [if_pos h1]
    · rw [if_neg h1, if_neg (by push_cast at *; linarith)]
      simp

theorem ulpExp_eq (x : ℚ) (e : ℤ) (hlo : (2 : ℚ) ^ e ≤ |x|) (hhi : |x| < (2 : ℚ) ^ (e + 1)) :
    ulpExp x = e - 52 := by
  have hpos : 0 < |x| := lt_of_lt_of_le (by positivity) hlo
  have h1 : e ≤ Int.log 2 |x| := (Int.zpow_le_iff_le_log (by norm_num) hpos).mp (by exact_mod_cast hlo)
  have h2 : Int.log 2 |x| < e + 1 := (Int.lt_zpow_iff_log_lt (by norm_num) hpos).mp (by exact_mod_cast hhi)
  unfold ulpExp; omega

theorem fl_cert (x : ℚ) (e m : ℤ) (hlo : (2 : ℚ) ^ e ≤ |x|) (hhi : |x| < (2 : ℚ) ^ (e + 1))
    (h1 : (m : ℚ) - 1 / 2 < x / (2 : ℚ) ^ (e - 52)) (h2 : x / (2 : ℚ) ^ (e - 52) < m + 1 / 2) :
    fl x = m * (2 : ℚ) ^ (e - 52) := by
  unfold fl
  rw [ulpExp_eq x e hlo hhi, roundHalfEven_of_near _ m h1 h2]

theorem fl_zero : fl 0 = 0 := by
  simp [fl, roundHalfEven]

theorem fl_nonneg (x : ℚ) (h : 0 ≤ x) : 0 ≤ fl x := by
  unfold fl
  have hp : (0 : ℚ) < (2 : ℚ) ^ ulpExp x := by positivity
  have := roundHalfEven_nonneg (x / (2 : ℚ) ^ ulpExp x) (div_nonneg h hp.le)
  have h2 : (0 : ℚ) ≤ (roundHalfEven (x / (2 : ℚ) ^ ulpExp x) : ℚ) := by exact_mod_cast this
  exact mul_nonneg h2 hp.le


theorem zpow_two_eq_natCast (k : ℤ) (hk : 0 ≤ k) : (2 : ℚ) ^ k = (((2 : ℤ) ^ k.toNat : ℤ) : ℚ) := by
  obtain ⟨n, rfl⟩ := Int.eq_ofNat_of_zero_le hk
  simp

theorem fl_of_int_quot (x : ℚ) (k : ℤ) (h : x / (2 : ℚ) ^ ulpExp x = k) : fl x = x := by
  unfold fl
  rw [h, roundHalfEven_intCast, ← h]
  have hp : (2 : ℚ) ^ ulpExp x ≠ 0 := by positivity
  field_simp

theorem fl_le_zpow (x : ℚ) (k : ℤ) (h : x ≤ (2 : ℚ) ^ k) : fl x ≤ (2 : ℚ) ^ k := by
  unfold fl
  have hp : (0 : ℚ) < (2 : ℚ) ^ ulpExp x := by positivity
  rcases le_or_lt (ulpExp x) k with hs | hs
  · have hK : (2 : ℚ) ^ k / (2 : ℚ) ^ ulpExp x = (((2 : ℤ) ^ (k - ulpExp x).toNat : ℤ) : ℚ) := by
      rw [← zpow_sub₀ (by norm_num), zpow_two_eq_natCast _ (by omega)]
    have hy : x / (2 : ℚ) ^ ulpExp x ≤ (((2 : ℤ) ^ (k - ulpExp x).toNat : ℤ) : ℚ) := by
      rw [← hK]; exact div_le_div_of_nonneg_right h hp.le
    have := roundHalfEven_le_intCast _ _ hy
    have h2 : (roundHalfEven (x / (2 : ℚ) ^ ulpExp x) : ℚ) ≤ (((2 : ℤ) ^ (k - ulpExp x).toNat : ℤ) : ℚ) := by
      exact_mod_cast this
    calc (roundHalfEven (x / (2 : ℚ) ^ ulpExp x) : ℚ) * (2 : ℚ) ^ ulpExp x
        ≤ (((2 : ℤ) ^ (k - ulpExp x).toNat : ℤ) : ℚ) * (2 : ℚ) ^ ulpExp x :=
          mul_le_mul_of_nonneg_right h2 hp.le
      _ = (2 : ℚ) ^ k := by rw [← hK]; field_simp
  · have hy : x / (2 : ℚ) ^ ulpExp x ≤ 1 / 2 := by
      have h1 : x / (2 : ℚ) ^ ulpExp x ≤ (2 : ℚ) ^ k / (2 : ℚ) ^ ulpExp x :=
        div_le_div_of_nonneg_right h hp.le
      have h3 : (2 : ℚ) ^ k / (2 : ℚ) ^ ulpExp x = (2 : ℚ) ^ (k - ulpExp x) := by
        rw [zpow_sub₀ (by norm_num)]
      have h4 : (2 : ℚ) ^ (k - ulpExp x) ≤ (2 : ℚ) ^ (-1 : ℤ) :=
        zpow_le_zpow_right₀ (by norm_num) (by omega)
      have h5 : (2 : ℚ) ^ (-1 : ℤ) = 1 / 2 := by norm_num
      calc x / (2 : ℚ) ^ ulpExp x ≤ (2 : ℚ) ^ k / (2 : ℚ) ^ ulpExp x := h1
        _ = (2 : ℚ) ^ (k - ulpExp x) := h3
        _ ≤ (2 : ℚ) ^ (-1 : ℤ) := h4
        _ = 1 / 2 := h5
    have := roundHalfEven_nonpos_of_le_half _ hy
    have h2 : (roundHalfEven (x / (2 : ℚ) ^ ulpExp x) : ℚ) ≤ 0 := by exact_mod_cast this
    have h6 : (0 : ℚ) < (2 : ℚ) ^ k := by positivity
    nlinarith [mul_nonneg (neg_nonneg.mpr h2) hp.le]

theorem fl_exact (m s : ℤ) (hm : |m| < 2 ^ 53) : fl ((m : ℚ) * (2 : ℚ) ^ s) = (m : ℚ) * (2 : ℚ) ^ s := by
  by_cases h0 : m = 0
  · subst h0; simp [fl_zero]
  have hx : |(m : ℚ) * (2 : ℚ) ^ s| = (|m| : ℤ) * (2 : ℚ) ^ s := by
    rw [abs_mul, abs_of_pos (show (0 : ℚ) < (2 : ℚ) ^ s by positivity)]; push_cast; rfl
  have hpos : 0 < |(m : ℚ) * (2 : ℚ) ^ s| := by
    rw [abs_pos]; apply mul_ne_zero
    · exact_mod_cast h0
    · positivity
  have hlt : |(m : ℚ) * (2 : ℚ) ^ s| < (2 : ℚ) ^ (53 + s) := by
    rw [hx, zpow_add₀ (by norm_num)]
    apply mul_lt_mul_of_pos_right _ (by positivity)
    exact_mod_cast hm
  have hlog : Int.log 2 |(m : ℚ) * (2 : ℚ) ^ s| < 53 + s :=
    (Int.lt_zpow_iff_log_lt (by norm_num) hpos).mp (by exact_mod_cast hlt)
  have ht : ulpExp ((m : ℚ) * (2 : ℚ) ^ s) ≤ s := by unfold ulpExp; omega
  apply fl_of_int_quot _ (m * (2 : ℤ) ^ (s - ulpExp ((m : ℚ) * (2 : ℚ) ^ s)).toNat)
  rw [mul_div_assoc, ← zpow_sub₀ (by norm_num), zpow_two_eq_natCast _ (by omega)]
  push_cast; rfl

theorem fl_intCast (n : ℤ) (h : |n| < 2 ^ 53) : fl (n : ℚ) = n := by
  have := fl_exact n 0 h
  simpa using this

theorem roundHalfEven_neg (y : ℚ) : roundHalfEven (-y) = -roundHalfEven y := by
  by_cases hint : y = ⌊y⌋
  · rw [hint, ← Int.cast_neg, roundHalfEven_intCast, roundHalfEven_intCast]
  · have hlt : (⌊y⌋ : ℚ) < y := lt_of_le_of_ne (Int.floor_le y) (Ne.symm hint)
    have hlt2 : y < ⌊y⌋ + 1 := Int.lt_floor_add_one y
    have hf : ⌊-y⌋ = -⌊y⌋ - 1 := by
      rw [Int.floor_eq_iff]; push_cast; constructor <;> linarith
    unfold roundHalfEven
    rw [hf]; push_cast
    split_ifs <;> first | omega | (exfalso; linarith)

theorem fl_neg (x : ℚ) : fl (-x) = -fl x := by
  have hu : ulpExp (-x) = ulpExp x := by unfold ulpExp; rw [abs_neg]
  unfold fl
  rw [hu, neg_div, roundHalfEven_neg]
  push_cast; ring

theorem floor_le_roundHalfEven (y : ℚ) : ⌊y⌋ ≤ roundHalfEven y := by
  unfold roundHalfEven
  split_ifs <;> omega

theorem roundHalfEven_le_floor_add_one (y : ℚ) : roundHalfEven y ≤ ⌊y⌋ + 1 := by
  unfold roundHalfEven
  split_ifs <;> omega

theorem roundHalfEven_mono {a b : ℚ} (h : a ≤ b) : roundHalfEven a ≤ roundHalfEven b := by
  have hf : ⌊a⌋ ≤ ⌊b⌋ := Int.floor_mono h
  rcases hf.lt_or_eq with hlt | heq
  · calc roundHalfEven a ≤ ⌊a⌋ + 1 := roundHalfEven_le_floor_add_one a
      _ ≤ ⌊b⌋ := hlt
      _ ≤ roundHalfEven b := floor_le_roundHalfEven b
  · unfold roundHalfEven
    rw [heq]
    split_ifs <;> first | omega | (exfalso; linarith)

theorem intCast_le_roundHalfEven (y : ℚ) (K : ℤ) (h : (K : ℚ) ≤ y) : K ≤ roundHalfEven y :=
  (Int.le_floor.mpr h).trans (floor_le_roundHalfEven y)

theorem zpow_log_le_fl (x : ℚ) (hx : 0 < x) : (2 : ℚ) ^ Int.log 2 x ≤ fl x := by
  have hu : ulpExp x = Int.log 2 x - 52 := by unfold ulpExp; rw [abs_of_pos hx]
  have hp : (0 : ℚ) < (2 : ℚ) ^ ulpExp x := by positivity
  have hlo : (2 : ℚ) ^ Int.log 2 x ≤ x := by
    have := Int.zpow_log_le_self (b := 2) (by norm_num) hx
    exact_mod_cast this
  have hq : (2 : ℚ) ^ Int.log 2 x / (2 : ℚ) ^ ulpExp x = (((2 : ℤ) ^ 52 : ℤ) : ℚ) := by
    rw [← zpow_sub₀ (by norm_num), hu]
    have : Int.log 2 x - (Int.log 2 x - 52) = 52 := by ring
    rw [this]; norm_num
  have hy : (((2 : ℤ) ^ 52 : ℤ) : ℚ) ≤ x / (2 : ℚ) ^ ulpExp x := by
    rw [← hq]; exact div_le_div_of_nonneg_right hlo hp.le
  have h2 : (((2 : ℤ) ^ 52 : ℤ) : ℚ) ≤ (roundHalfEven (x / (2 : ℚ) ^ ulpExp x) : ℚ) := by
    exact_mod_cast intCast_le_roundHalfEven _ _ hy
  unfold fl
  calc (2 : ℚ) ^ Int.log 2 x = (((2 : ℤ) ^ 52 : ℤ) : ℚ) * (2 : ℚ) ^ ulpExp x := by
        rw [← hq]; field_simp
    _ ≤ (roundHalfEven (x / (2 : ℚ) ^ ulpExp x) : ℚ) * (2 : ℚ) ^ ulpExp x :=
        mul_le_mul_of_nonneg_right h2 hp.le

theorem fl_mono_of_pos {x y : ℚ} (hx : 0 < x) (h : x ≤ y) : fl x ≤ fl y := by
  have hy : 0 < y := lt_of_lt_of_le hx h
  have hlog : Int.log 2 x ≤ Int.log 2 y := Int.log_mono_right hx h
  rcases hlog.lt_or_eq with hlt | heq
  · have h1 : x ≤ (2 : ℚ) ^ (Int.log 2 x + 1) := by
      have := Int.lt_zpow_succ_log_self (b := 2) (by norm_num) x
      exact le_of_lt (by exact_mod_cast this)
    calc fl x ≤ (2 : ℚ) ^ (Int.log 2 x + 1) := fl_le_zpow x _ h1
      _ ≤ (2 : ℚ) ^ Int.log 2 y := zpow_le_zpow_right₀ (by norm_num) (by omega)
      _ ≤ fl y := zpow_log_le_fl y hy
  · have hu : ulpExp x = ulpExp y := by
      unfold ulpExp; rw [abs_of_pos hx, abs_of_pos hy, heq]
    unfold fl
    rw [hu]
    have hp : (0 : ℚ) < (2 : ℚ) ^ ulpExp y := by positivity
    have hq : x / (2 : ℚ) ^ ulpExp y ≤ y / (2 : ℚ) ^ ulpExp y :=
      div_le_div_of_nonneg_right h hp.le
    have h2 : (roundHalfEven (x / (2 : ℚ) ^ ulpExp y) : ℚ) ≤
        (roundHalfEven (y / (2 : ℚ) ^ ulpExp y) : ℚ) := by
      exact_mod_cast roundHalfEven_mono hq
    exact mul_le_mul_of_nonneg_right h2 hp.le

theorem fl_nonpos (x : ℚ) (h : x ≤ 0) : fl x ≤ 0 := by
  have h1 := fl_nonneg (-x) (by linarith)
  rw [fl_neg] at h1
  linarith

/-- Rounding to binary64 is monotone. -/
theorem fl_mono {x y : ℚ} (h : x ≤ y) : fl x ≤ fl y := by
  rcases lt_or_le 0 x with hx | hx
  · exact fl_mono_of_pos hx h
  · rcases lt_or_le y 0 with hy | hy
    · have h1 := fl_mono_of_pos (x := -y) (y := -x) (by linarith) (by linarith)
      rw [fl_neg, fl_neg] at h1
      linarith
    · exact (fl_nonpos x hx).trans (fl_nonneg y hy)

/-! ### `computeNavPerToken` -/

/-- C3: with `totalSupply = 0` the function fails, whatever the directory holds. -/
theorem computeNavPerToken_zero_supply (dir : List BrrmsFile) (fundKey : String) (months : Int) :
    computeNavPerToken dir fundKey months 0 = .error .zeroSupply := by
  simp [computeNavPerToken]

theorem fl_ofNat (n : ℕ) (h : n < 2 ^ 53) :
    fl (no_index (OfNat.ofNat n) : ℚ) = OfNat.ofNat n := by
  have h2 : |(n : ℤ)| < 2 ^ 53 := by
    rw [abs_of_nonneg (Int.natCast_nonneg n)]; exact_mod_cast h
  have := fl_intCast (n : ℤ) h2
  simpa using this

theorem fl_one : fl 1 = 1 := by
  have := fl_intCast 1 (by norm_num)
  simpa using this

theorem mathRound_nonneg (x : ℚ) (h : 0 ≤ x) : 0 ≤ mathRound x := by
  unfold mathRound
  exact Int.floor_nonneg.mpr (by linarith)

/-- The loop started in any state: it sums the net revenues of the records of
the business, counts them, and keeps the percentage of the last one. -/
theorem foldl_loopStep (businessId : String) (sel : List BrrmsFile) (st : LoopState) :
    sel.foldl (loopStep businessId) st =
      ⟨sumNetRevenue (sel.filter (fun f => f.businessId = businessId)) st.totalNetRevenue,
       st.totalWeight + (sel.filter (fun f => f.businessId = businessId)).length,
       lastPercentBps (sel.filter (fun f => f.businessId = businessId)) st.tokenizedPercentBps⟩ := by
  induction sel generalizing st with
  | nil => simp [sumNetRevenue, lastPercentBps]
  | cons f rest ih =>
    rw [List.foldl_cons, ih]
    by_cases hf : f.businessId = businessId
    · have hstep : loopStep businessId st f =
          ⟨jsAdd st.totalNetRevenue (f.netRevenue.getD 0), st.totalWeight + 1,
            f.tokenizedPercentBps.getD 0⟩ := by
        simp [loopStep, hf]
      rw [hstep, List.filter_cons_of_pos (by simpa using hf)]
      simp only [sumNetRevenue, List.foldl_cons, List.length_cons, lastPercentBps]
      congr 1
      · omega
      · cases hr : List.filter (fun f => decide (f.businessId = businessId)) rest with
        | nil => simp
        | cons g gs =>
          rw [List.getLast?_cons_cons, List.getLast?_eq_getLast _ (List.cons_ne_nil g gs)]
          simp
    · have hstep : loopStep businessId st f = st := by
        simp [loopStep, hf]
      rw [hstep, List.filter_cons_of_neg (by simpa using hf)]

theorem runLoop_eq (dir : List BrrmsFile) (fundKey : String) (months : Int) :
    runLoop ("fund" ++ fundKey) (selectWindow dir fundKey months) =
      ⟨sumNetRevenue (windowRecords dir fundKey months) 0,
       (windowRecords dir fundKey months).length,
       lastPercentBps (windowRecords dir fundKey months) 0⟩ := by
  unfold runLoop windowRecords
  rw [foldl_loopStep]
  simp

theorem jsSlice0_sublist {α : Type} (xs : List α) (n : Int) : (jsSlice0 xs n).Sublist xs := by
  unfold jsSlice0
  split_ifs <;> exact List.take_sublist _ _

theorem businessFiles_ne_nil_of_windowRecords (dir : List BrrmsFile) (fundKey : String)
    (months : Int) (h : windowRecords dir fundKey months ≠ []) :
    (businessFiles dir ("fund" ++ fundKey)).length ≠ 0 := by
  intro h0
  apply h
  have hnil : businessFiles dir ("fund" ++ fundKey) = [] := List.length_eq_zero.mp h0
  have hsel : selectWindow dir fundKey months = [] := by
    have := jsSlice0_sublist (sortedDesc (businessFiles dir ("fund" ++ fundKey))) months
    rw [hnil] at this
    simpa [selectWindow, hnil, sortedDesc] using this
  simp [windowRecords, hsel]

/-- The value `computeNavPerToken` returns on a window with at least one record
of the fund, for a positive supply. -/
theorem computeNavPerToken_eq (dir : List BrrmsFile) (fundKey : String) (months : Int)
    (S : Int) (hS : S ≠ 0) (hne : windowRecords dir fundKey months ≠ []) :
    computeNavPerToken dir fundKey months S =
      .ok (((windowCents (windowRecords dir fundKey months) * 10 ^ 18).tdiv 100).tdiv S) := by
  unfold computeNavPerToken
  rw [if_neg hS, if_neg (businessFiles_ne_nil_of_windowRecords dir fundKey months hne)]
  simp only [runLoop_eq]
  rw [if_neg (by simpa using hne)]
  rfl

theorem mem_sortedDesc (files : List BrrmsFile) (f : BrrmsFile) :
    f ∈ sortedDesc files ↔ f ∈ files := by
  unfold sortedDesc
  rw [List.mem_reverse]
  exact (List.perm_insertionSort nameLe files).mem_iff

theorem length_sortedDesc (files : List BrrmsFile) : (sortedDesc files).length = files.length := by
  unfold sortedDesc
  rw [List.length_reverse, List.length_insertionSort]

/-- When every file whose name contains the business id is a file of that
business, the window of `months >= 1` files holds exactly the
`min(months, n)` records of the fund with the greatest file names, and the NAV
is computed from them. -/
theorem computeNavPerToken_no_collision (dir : List BrrmsFile) (fundKey : String) (months : Nat)
    (S : Int) (hS : S ≠ 0) (hm : 0 < months)
    (hall : ∀ f ∈ businessFiles dir ("fund" ++ fundKey), f.businessId = "fund" ++ fundKey)
    (hn : businessFiles dir ("fund" ++ fundKey) ≠ []) :
    windowRecords dir fundKey months =
        (sortedDesc (businessFiles dir ("fund" ++ fundKey))).take months ∧
      (windowRecords dir fundKey months).length =
        min months (businessFiles dir ("fund" ++ fundKey)).length ∧
      computeNavPerToken dir fundKey months S =
        .ok (((windowCents (windowRecords dir fundKey months) * 10 ^ 18).tdiv 100).tdiv S) := by
  have hsel : selectWindow dir fundKey months =
      (sortedDesc (businessFiles dir ("fund" ++ fundKey))).take months := by
    simp [selectWindow, jsSlice0]
  have hw : windowRecords dir fundKey months =
      (sortedDesc (businessFiles dir ("fund" ++ fundKey))).take months := by
    unfold windowRecords
    rw [hsel, List.filter_eq_self]
    intro f hf
    have := (mem_sortedDesc _ f).mp (List.mem_of_mem_take hf)
    simpa using hall f this
  have hlen : (windowRecords dir fundKey months).length =
      min months (businessFiles dir ("fund" ++ fundKey)).length := by
    rw [hw, List.length_take, length_sortedDesc]
  refine ⟨hw, hlen, computeNavPerToken_eq dir fundKey months S hS ?_⟩
  intro hnil
  rw [hnil] at hlen
  have hpos : 0 < (businessFiles dir ("fund" ++ fundKey)).length :=
    List.length_pos.mpr hn
  simp at hlen
  omega

/-- C4, failing input: fund "I" has one record, yet with `months = 1` the only
selected file is the one of fund "II" (its name contains `fundI` and sorts
after it), the loop skips it, and the function fails instead of returning the
NAV of the record of fund "I". -/
theorem computeNavPerToken_collision :
    (navCollisionDir.filter (fun f => f.businessId = "fundI")).length = 1 ∧
      (selectWindow navCollisionDir "I" 1).map (fun f => f.name) = ["2025-01-fundII.json"] ∧
      computeNavPerToken navCollisionDir "I" 1 1000000 = .error .noRecords := by
  have h0 : "fund" ++ "I" = "fundI" := by decide
  have h1 : businessFiles navCollisionDir "fundI" = navCollisionDir := by decide
  have h2 : sortedDesc navCollisionDir = navCollisionDir.reverse := by decide
  have h3 : jsSlice0 navCollisionDir.reverse 1 =
      [⟨"2025-01-fundII.json", "fundII", some 50000, some 1000⟩] := by decide
  have hsel : selectWindow navCollisionDir "I" 1 =
      [⟨"2025-01-fundII.json", "fundII", some 50000, some 1000⟩] := by
    unfold selectWindow
    rw [h0, h1, h2, h3]
  have hloop : runLoop "fundI" [⟨"2025-01-fundII.json", "fundII", some 50000, some 1000⟩] =
      ⟨0, 0, 0⟩ := by
    simp [runLoop, loopStep]
  refine ⟨by decide, by rw [hsel]; rfl, ?_⟩
  unfold computeNavPerToken
  rw [if_neg (by decide), hsel, h0, h1, if_neg (by decide), hloop]
  rfl

theorem jsLit_nonneg (q : ℚ) (h : 0 ≤ q) : 0 ≤ jsLit q := fl_nonneg q h

theorem jsAdd_zero_ofNat (n : ℕ) (h : n < 2 ^ 53) :
    jsAdd 0 (no_index (OfNat.ofNat n) : ℚ) = OfNat.ofNat n := by
  unfold jsAdd
  rw [zero_add, fl_ofNat n h]

theorem fl_one_fifth : fl (1 / 5) = 3602879701896397 / 18014398509481984 := by
  rw [fl_cert (1 / 5) (-3) 7205759403792794 (by norm_num [abs_of_pos])
    (by norm_num [abs_of_pos]) (by norm_num) (by norm_num)]
  norm_num

theorem fl_one_tenth : fl (1 / 10) = 3602879701896397 / 36028797018963968 := by
  rw [fl_cert (1 / 10) (-4) 7205759403792794 (by norm_num [abs_of_pos])
    (by norm_num [abs_of_pos]) (by norm_num) (by norm_num)]
  norm_num

theorem fl_one_twentieth : fl (1 / 20) = 3602879701896397 / 72057594037927936 := by
  rw [fl_cert (1 / 20) (-5) 7205759403792794 (by norm_num [abs_of_pos])
    (by norm_num [abs_of_pos]) (by norm_num) (by norm_num)]
  norm_num

theorem fl_one_fiftieth : fl (1 / 50) = 5764607523034235 / 288230376151711744 := by
  rw [fl_cert (1 / 50) (-6) 5764607523034235 (by norm_num [abs_of_pos])
    (by norm_num [abs_of_pos]) (by norm_num) (by norm_num)]
  norm_num

theorem fl_11_div_50 : fl (11 / 50) = 7926335344172073 / 36028797018963968 := by
  rw [fl_cert (11 / 50) (-3) 7926335344172073 (by norm_num [abs_of_pos])
    (by norm_num [abs_of_pos]) (by norm_num) (by norm_num)]
  norm_num

theorem fl_17_div_20 : fl (17 / 20) = 7656119366529843 / 9007199254740992 := by
  rw [fl_cert (17 / 20) (-1) 7656119366529843 (by norm_num [abs_of_pos])
    (by norm_num [abs_of_pos]) (by norm_num) (by norm_num)]
  norm_num

theorem fl_23_div_25 : fl (23 / 25) = 8286623314361713 / 9007199254740992 := by
  rw [fl_cert (23 / 25) (-1) 8286623314361713 (by norm_num [abs_of_pos])
    (by norm_num [abs_of_pos]) (by norm_num) (by norm_num)]
  norm_num

theorem fl_four_fiftieths :
    fl (5764607523034235 / 72057594037927936) = 5764607523034235 / 72057594037927936 := by
  rw [fl_cert (5764607523034235 / 72057594037927936) (-4) 5764607523034235
    (by norm_num [abs_of_pos]) (by norm_num [abs_of_pos]) (by norm_num) (by norm_num)]
  norm_num

theorem fl_one_sub_four_fiftieths :
    fl (66292986514893701 / 72057594037927936) = 8286623314361713 / 9007199254740992 := by
  rw [fl_cert (66292986514893701 / 72057594037927936) (-1) 8286623314361713
    (by norm_num [abs_of_pos]) (by norm_num [abs_of_pos]) (by norm_num) (by norm_num)]
  norm_num

theorem getInsuranceAdjustment_example :
    (getInsuranceAdjustment uploadsExample "acme").riskScore = 4 ∧
      (getInsuranceAdjustment uploadsExample "acme").adjustmentMultiplier = jsLit (92 / 100) := by
  norm_num [getInsuranceAdjustment, uploadsExample, jsGt, jsTruthy, jsLit, jsAdd, jsSub, jsMul,
    mathMax, fl_ofNat, fl_one, fl_one_fifth, fl_one_tenth, fl_one_twentieth, fl_one_fiftieth,
    fl_11_div_50, fl_17_div_20, fl_23_div_25, fl_four_fiftieths, fl_one_sub_four_fiftieths]

theorem jsAdd_bucket_zero (b : ℚ) (hb : b = 0 ∨ b = 1 ∨ b = 2 ∨ b = 3) : jsAdd b 0 = b := by
  unfold jsAdd
  rw [add_zero]
  rcases hb with h | h | h | h <;> rw [h]
  · exact fl_zero
  · exact fl_one
  · exact fl_ofNat 2 (by norm_num)
  · exact fl_ofNat 3 (by norm_num)

/-- The score the code holds after the volatility test is the bucket of the specification. -/
theorem bucketScore_eq_spec (v : Option ℚ) :
    (if jsGt v (jsLit (20 / 100)) then jsAdd 0 3
      else if jsGt v (jsLit (10 / 100)) then jsAdd 0 2
      else if jsGt v (jsLit (5 / 100)) then jsAdd 0 1
      else (0 : ℚ)) = (v.map specBucket).getD 0 := by
  have h1 : jsAdd 0 1 = 1 := by
    unfold jsAdd; rw [zero_add, fl_one]
  have h2 : jsAdd 0 2 = 2 := jsAdd_zero_ofNat 2 (by norm_num)
  have h3 : jsAdd 0 3 = 3 := jsAdd_zero_ofNat 3 (by norm_num)
  cases v with
  | none => simp [jsGt]
  | some x =>
    simp only [jsGt, decide_eq_true_eq, Option.map_some', Option.getD_some, specBucket, gt_iff_lt,
      h1, h2, h3]

theorem specBucket_cases (v : Option ℚ) :
    (v.map specBucket).getD 0 = 0 ∨ (v.map specBucket).getD 0 = 1 ∨
      (v.map specBucket).getD 0 = 2 ∨ (v.map specBucket).getD 0 = 3 := by
  cases v with
  | none => simp
  | some x =>
    simp only [Option.map_some', Option.getD_some, specBucket]
    split_ifs <;> simp

/-- C7: `getInsuranceAdjustment` equals the reference definition of the
specification (neutral result without a profile; with one, bucket of the
volatility plus the tier, multiplier `max(0.85, 1.0 - riskScore * 0.02)`,
factors of the profile), and revenueVolatility 0.22 with industryRiskTier 1
gives the risk score 4 and the multiplier 0.92. -/
theorem getInsuranceAdjustment_eq_spec (uploads : String → Option Exposure) (businessId : String) :
    ((getInsuranceAdjustment uploads businessId).riskScore,
        (getInsuranceAdjustment uploads businessId).adjustmentMultiplier,
        (getInsuranceAdjustment uploads businessId).factors) =
        specInsuranceAdjustment
          ((uploads businessId).map (fun e => e.riskFactors.getD RiskFactors.empty)) ∧
      (getInsuranceAdjustment uploadsExample "acme").riskScore = 4 ∧
      (getInsuranceAdjustment uploadsExample "acme").adjustmentMultiplier = jsLit (92 / 100) := by
  refine ⟨?_, getInsuranceAdjustment_example⟩
  cases hu : uploads businessId with
  | none => simp [getInsuranceAdjustment, hu, specInsuranceAdjustment]
  | some e =>
    have hscore : (getInsuranceAdjustment uploads businessId).riskScore =
        jsAdd (((e.riskFactors.getD RiskFactors.empty).revenueVolatility.map specBucket).getD 0)
          ((e.riskFactors.getD RiskFactors.empty).industryRiskTier.getD 0) := by
      simp only [getInsuranceAdjustment, hu, bucketScore_eq_spec]
      cases ht : (e.riskFactors.getD RiskFactors.empty).industryRiskTier with
      | none =>
        simp only [jsTruthy, Option.getD_none]
        rw [jsAdd_bucket_zero _ (specBucket_cases _)]
        simp
      | some t =>
        by_cases h0 : t = 0
        · subst h0
          simp only [jsTruthy, Option.getD_some]
          rw [jsAdd_bucket_zero _ (specBucket_cases _)]
          simp
        · simp [jsTruthy, h0]
    have hm : (getInsuranceAdjustment uploads businessId).adjustmentMultiplier =
        mathMax (jsLit (85 / 100))
          (jsSub 1 (jsMul (getInsuranceAdjustment uploads businessId).riskScore
            (jsLit (2 / 100)))) := by
      simp only [getInsuranceAdjustment, hu]
    have hf : (getInsuranceAdjustment uploads businessId).factors =
        e.riskFactors.getD RiskFactors.empty := by
      simp only [getInsuranceAdjustment, hu]
    rw [hm, hf, hscore]
    simp [specInsuranceAdjustment]

/-! ### The payout log and the `RedemptionProcessed` callback -/

/-- On a writable log that holds an array, no file or only white space, the
append succeeds and the log then holds the previous records followed by the new one. -/
theorem appendPayoutRecord_ok (log : PayoutLog) (r : PayoutRecord)
    (hw : log.writable = true) (hc : log.content ≠ .other) :
    appendPayoutRecord log r = .ok ⟨.array (log.records ++ [r]), true⟩ := by
  obtain ⟨content, writable⟩ := log
  simp only at hw hc
  subst hw
  cases content <;> simp_all [appendPayoutRecord, PayoutLog.records]

theorem onRedemptionProcessed_ok (key : String) (st : EngineState) (ev : RedemptionEvent)
    (hw : st.log.writable = true) (hc : st.log.content ≠ .other) :
    onRedemptionProcessed key st ev =
      (⟨⟨.array (st.log.records ++ [buildRecord key ev]), true⟩,
        st.payouts ++ [buildRecord key ev]⟩, none) := by
  simp only [onRedemptionProcessed, appendPayoutRecord_ok st.log _ hw hc]
  rfl

theorem countKey_append_singleton (k : String × String × String × String)
    (rs : List PayoutRecord) (r : PayoutRecord) (h : identityKey r = k) :
    countKey k (rs ++ [r]) = countKey k rs + 1 := by
  simp [countKey, List.filter_append, h]

/-- C1 (as amended): the callback does not deduplicate.  On a writable payout
log with readable content, two deliveries with the same identity key each
append one PayoutRecord and each invoke `executePayout` once: afterwards the log
holds two more records with that key and two more invocations were made. -/
theorem onRedemptionProcessed_twice (key : String) (st : EngineState) (e1 e2 : RedemptionEvent)
    (hw : st.log.writable = true) (hc : st.log.content ≠ .other)
    (hk : identityKey (buildRecord key e1) = identityKey (buildRecord key e2)) :
    (onRedemptionProcessed key (onRedemptionProcessed key st e1).1 e2).1.log.records =
        st.log.records ++ [buildRecord key e1, buildRecord key e2] ∧
      (onRedemptionProcessed key (onRedemptionProcessed key st e1).1 e2).1.payouts =
        st.payouts ++ [buildRecord key e1, buildRecord key e2] ∧
      countKey (identityKey (buildRecord key e1))
          (onRedemptionProcessed key (onRedemptionProcessed key st e1).1 e2).1.log.records =
        countKey (identityKey (buildRecord key e1)) st.log.records + 2 ∧
      countKey (identityKey (buildRecord key e1))
          (onRedemptionProcessed key (onRedemptionProcessed key st e1).1 e2).1.payouts =
        countKey (identityKey (buildRecord key e1)) st.payouts + 2 := by
  rw [onRedemptionProcessed_ok key st e1 hw hc]
  rw [onRedemptionProcessed_ok key _ e2 rfl (by simp)]
  refine ⟨?_, ?_, ?_, ?_⟩
  · simp [PayoutLog.records]
  · simp
  · simp only [PayoutLog.records]
    rw [countKey_append_singleton _ _ _ hk.symm, countKey_append_singleton _ _ _ rfl]
  · simp only []
    rw [countKey_append_singleton _ _ _ hk.symm, countKey_append_singleton _ _ _ rfl]

/-- C1, witness: an event and its redelivery with another timestamp, on an empty log. -/
theorem onRedemptionProcessed_twice_witness :
    countKey (identityKey (buildRecord "I" eventFirst))
        (onRedemptionProcessed "I"
          (onRedemptionProcessed "I" ⟨⟨.array [], true⟩, []⟩ eventFirst).1 eventAgain).1.payouts =
      countKey (identityKey (buildRecord "I" eventFirst)) [] + 2 :=
  (onRedemptionProcessed_twice "I" ⟨⟨.array [], true⟩, []⟩ eventFirst eventAgain rfl
    (by simp) (by decide)).2.2.2

/-- C1, counterexample: the event `eventFirst` and its redelivery `eventAgain`
have the same identity key and differ in the timestamp only; after both
deliveries on an empty log the log holds two records with that key, not one,
`executePayout` was invoked twice, and the second delivery changed the log. -/
theorem onRedemptionProcessed_duplicate_counterexample :
    identityKey (buildRecord "I" eventFirst) = identityKey (buildRecord "I" eventAgain) ∧
      countKey (identityKey (buildRecord "I" eventFirst))
        (onRedemptionProcessed "I"
          (onRedemptionProcessed "I" ⟨⟨.array [], true⟩, []⟩ eventFirst).1
            eventAgain).1.log.records = 2 ∧
      countKey (identityKey (buildRecord "I" eventFirst))
        (onRedemptionProcessed "I"
          (onRedemptionProcessed "I" ⟨⟨.array [], true⟩, []⟩ eventFirst).1
            eventAgain).1.payouts = 2 ∧
      (onRedemptionProcessed "I"
          (onRedemptionProcessed "I" ⟨⟨.array [], true⟩, []⟩ eventFirst).1 eventAgain).1.log ≠
        (onRedemptionProcessed "I" ⟨⟨.array [], true⟩, []⟩ eventFirst).1.log := by
  decide

/-- C10: the settlement step sets `adjustedRedemptionValue` to the product of
the terminal payable value, the property `redemptionValue` of the contract
result, and the adjustment multiplier, and leaves every other property of the
redemption result as it was. -/
theorem applyInsuranceAdjustment_frame (redemptionResult : RedemptionResult)
    (insurance : InsuranceAdjustment) :
    applyInsuranceAdjustment redemptionResult insurance "adjustedRedemptionValue" =
        jsTimes (redemptionResult "redemptionValue") insurance.adjustmentMultiplier ∧
      (∀ v, redemptionResult "redemptionValue" = .number v →
        applyInsuranceAdjustment redemptionResult insurance "adjustedRedemptionValue" =
          .number (jsMul v insurance.adjustmentMultiplier)) ∧
      ∀ field, field ≠ "adjustedRedemptionValue" →
        applyInsuranceAdjustment redemptionResult insurance field = redemptionResult field := by
  refine ⟨by simp [applyInsuranceAdjustment], ?_, ?_⟩
  · intro v hv
    simp [applyInsuranceAdjustment, hv, jsTimes]
  · intro field hf
    simp [applyInsuranceAdjustment, Function.update_noteq hf]

/-! ### The multiplier as a function of the risk score -/

theorem mathMax_mono_right (a : ℚ) {b c : ℚ} (h : b ≤ c) : mathMax a b ≤ mathMax a c := by
  unfold mathMax
  split_ifs <;> linarith

theorem mathMax_eq_left (a b : ℚ) (h : b ≤ a) : mathMax a b = a := by
  unfold mathMax
  rw [if_neg (not_lt.mpr h)]

/-- With or without a profile, the multiplier returned is `multiplierOf` of the
risk score returned. -/
theorem adjustmentMultiplier_eq_multiplierOf (uploads : String → Option Exposure)
    (businessId : String) :
    (getInsuranceAdjustment uploads businessId).adjustmentMultiplier =
      multiplierOf (getInsuranceAdjustment uploads businessId).riskScore := by
  cases hu : uploads businessId with
  | none =>
    simp only [getInsuranceAdjustment, hu, multiplierOf]
    norm_num [jsMul, jsSub, jsLit, mathMax, fl_zero, fl_one, fl_17_div_20]
  | some e =>
    simp only [getInsuranceAdjustment, hu, multiplierOf]

/-- The multiplier does not increase when the risk score increases. -/
theorem multiplierOf_antitone {s1 s2 : ℚ} (h : s1 ≤ s2) : multiplierOf s2 ≤ multiplierOf s1 := by
  unfold multiplierOf
  apply mathMax_mono_right
  unfold jsSub jsMul
  apply fl_mono
  have hc : 0 ≤ jsLit (2 / 100) := jsLit_nonneg _ (by norm_num)
  have hmul : fl (s1 * jsLit (2 / 100)) ≤ fl (s2 * jsLit (2 / 100)) :=
    fl_mono (mul_le_mul_of_nonneg_right h hc)
  linarith

theorem fl_eight_fiftieths :
    fl (5764607523034235 / 36028797018963968) = 5764607523034235 / 36028797018963968 := by
  rw [fl_cert (5764607523034235 / 36028797018963968) (-3) 5764607523034235
    (by norm_num [abs_of_pos]) (by norm_num [abs_of_pos]) (by norm_num) (by norm_num)]
  norm_num

theorem fl_one_sub_eight_fiftieths :
    fl (30264189495929733 / 36028797018963968) = 7566047373982433 / 9007199254740992 := by
  rw [fl_cert (30264189495929733 / 36028797018963968) (-1) 7566047373982433
    (by norm_num [abs_of_pos]) (by norm_num [abs_of_pos]) (by norm_num) (by norm_num)]
  norm_num

/-- At the risk score 8 the difference `1.0 - 8 * 0.02` is the Number 0.84. -/
theorem jsSub_one_eight : jsSub 1 (jsMul 8 (jsLit (2 / 100))) = 7566047373982433 / 9007199254740992 := by
  norm_num [jsSub, jsMul, jsLit, fl_one_fiftieth, fl_eight_fiftieths, fl_one_sub_eight_fiftieths]

/-- From the risk score 8 on, the multiplier is the floor 0.85. -/
theorem multiplierOf_floor (s : ℚ) (h : 8 ≤ s) : multiplierOf s = jsLit (85 / 100) := by
  unfold multiplierOf
  apply mathMax_eq_left
  have hc : 0 ≤ jsLit (2 / 100) := jsLit_nonneg _ (by norm_num)
  have hmul : jsMul 8 (jsLit (2 / 100)) ≤ jsMul s (jsLit (2 / 100)) :=
    fl_mono (mul_le_mul_of_nonneg_right h hc)
  have hsub : jsSub 1 (jsMul s (jsLit (2 / 100))) ≤ jsSub 1 (jsMul 8 (jsLit (2 / 100))) :=
    fl_mono (by linarith)
  have h85 : jsLit (85 / 100) = 7656119366529843 / 9007199254740992 := by
    unfold jsLit; norm_num [fl_17_div_20]
  rw [jsSub_one_eight] at hsub
  rw [h85]
  linarith

theorem getInsuranceAdjustment_highRisk :
    (getInsuranceAdjustment uploadsHighRisk "acme").riskScore = 8 := by
  norm_num [getInsuranceAdjustment, uploadsHighRisk, jsGt, jsTruthy, jsLit, jsAdd, fl_ofNat,
    fl_one_fifth, fl_one_tenth, fl_one_twentieth, fl_11_div_50]

/-- C11: for every two risk profiles whose risk scores satisfy `s1 <= s2` the
multipliers `getInsuranceAdjustment` returns satisfy `m1 >= m2`, and for every
risk score of 8 or more the multiplier is the floor 0.85 (the Number `0.85`). -/
theorem getInsuranceAdjustment_multiplier_antitone (uploads1 uploads2 : String → Option Exposure)
    (business1 business2 : String) :
    ((getInsuranceAdjustment uploads1 business1).riskScore ≤
          (getInsuranceAdjustment uploads2 business2).riskScore →
        (getInsuranceAdjustment uploads2 business2).adjustmentMultiplier ≤
          (getInsuranceAdjustment uploads1 business1).adjustmentMultiplier) ∧
      (8 ≤ (getInsuranceAdjustment uploads1 business1).riskScore →
        (getInsuranceAdjustment uploads1 business1).adjustmentMultiplier = jsLit (85 / 100)) := by
  constructor
  · intro h
    rw [adjustmentMultiplier_eq_multiplierOf, adjustmentMultiplier_eq_multiplierOf uploads1]
    exact multiplierOf_antitone h
  · intro h
    rw [adjustmentMultiplier_eq_multiplierOf]
    exact multiplierOf_floor _ h

/-- C11, witness: the profile with volatility 0.22 and tier 5 has the risk score
8, the one with tier 1 the risk score 4; the multiplier of the first is the
floor 0.85 and is not above the multiplier of the second. -/
theorem getInsuranceAdjustment_multiplier_antitone_witness :
    (getInsuranceAdjustment uploadsHighRisk "acme").adjustmentMultiplier ≤
        (getInsuranceAdjustment uploadsExample "acme").adjustmentMultiplier ∧
      (getInsuranceAdjustment uploadsHighRisk "acme").adjustmentMultiplier = jsLit (85 / 100) :=
  ⟨(getInsuranceAdjustment_multiplier_antitone uploadsExample uploadsHighRisk "acme" "acme").1
      (by rw [getInsuranceAdjustment_example.1, getInsuranceAdjustment_highRisk]; norm_num),
    (getInsuranceAdjustment_multiplier_antitone uploadsHighRisk uploadsHighRisk "acme" "acme").2
      (by rw [getInsuranceAdjustment_highRisk])⟩

/-! ### Independence of the order of the directory listing -/

theorem char_toNat_valid (c : Char) : c.toNat < 0xD800 ∨ (0xDFFF < c.toNat ∧ c.toNat < 0x110000) :=
  c.valid

theorem char_eq_of_toNat_eq {c d : Char} (h : c.toNat = d.toNat) : c = d := by
  apply Char.ext
  apply UInt32.ext
  exact h

theorem utf16_append_inj {c d : Char} {r1 r2 : List Nat} (h : utf16 c ++ r1 = utf16 d ++ r2) :
    c = d ∧ r1 = r2 := by
  have hc := char_toNat_valid c
  have hd := char_toNat_valid d
  unfold utf16 at h
  split_ifs at h with h1 h2 h2
  · simp only [List.singleton_append, List.cons.injEq] at h
    exact ⟨char_eq_of_toNat_eq h.1, h.2⟩
  · simp only [List.singleton_append, List.cons_append, List.nil_append, List.cons.injEq] at h
    omega
  · simp only [List.singleton_append, List.cons_append, List.nil_append, List.cons.injEq] at h
    omega
  · simp only [List.cons_append, List.nil_append, List.cons.injEq] at h
    exact ⟨char_eq_of_toNat_eq (by omega), h.2.2⟩

theorem flatMap_utf16_injective (l1 l2 : List Char) (h : l1.flatMap utf16 = l2.flatMap utf16) :
    l1 = l2 := by
  induction l1 generalizing l2 with
  | nil =>
    cases l2 with
    | nil => rfl
    | cons d ds =>
      exfalso
      simp only [List.flatMap_nil, List.flatMap_cons] at h
      unfold utf16 at h
      split_ifs at h <;> simp at h
  | cons c cs ih =>
    cases l2 with
    | nil =>
      exfalso
      simp only [List.flatMap_nil, List.flatMap_cons] at h
      unfold utf16 at h
      split_ifs at h <;> simp at h
    | cons d ds =>
      simp only [List.flatMap_cons] at h
      obtain ⟨hcd, hr⟩ := utf16_append_inj h
      rw [hcd, ih ds hr]

/-- Two strings with the same UTF-16 code units are the same string. -/
theorem codeUnits_injective {a b : String} (h : codeUnits a = codeUnits b) : a = b := by
  unfold codeUnits at h
  have := flatMap_utf16_injective _ _ h
  exact String.ext this

/-- Files that `sort()` cannot tell apart have the same name. -/
theorem name_eq_of_nameLe {a b : BrrmsFile} (hab : nameLe a b) (hba : nameLe b a) :
    a.name = b.name :=
  codeUnits_injective (le_antisymm (α := List Nat) hab hba)

/-- Sorting by name gives one result for all listings of files with distinct names. -/
theorem insertionSort_eq_of_perm (l1 l2 : List BrrmsFile) (hp : l1.Perm l2)
    (hn : (l1.map (fun f => f.name)).Nodup) :
    l1.insertionSort nameLe = l2.insertionSort nameLe := by
  have hn2 : (l2.map (fun f => f.name)).Nodup := (hp.map _).nodup_iff.mp hn
  have hinj1 := List.inj_on_of_nodup_map hn
  have hinj2 := List.inj_on_of_nodup_map hn2
  haveI : IsAntisymm BrrmsFile (fun a b => nameLe a b ∧ (nameLe b a → a = b)) :=
    ⟨fun a b hab hba => hab.2 hba.1⟩
  have hs1 : (l1.insertionSort nameLe).Sorted (fun a b => nameLe a b ∧ (nameLe b a → a = b)) := by
    apply List.Pairwise.imp_of_mem _ (List.sorted_insertionSort nameLe l1)
    intro a b ha hb hab
    have ha1 : a ∈ l1 := (List.perm_insertionSort nameLe l1).mem_iff.mp ha
    have hb1 : b ∈ l1 := (List.perm_insertionSort nameLe l1).mem_iff.mp hb
    exact ⟨hab, fun hba => hinj1 ha1 hb1 (name_eq_of_nameLe hab hba)⟩
  have hs2 : (l2.insertionSort nameLe).Sorted (fun a b => nameLe a b ∧ (nameLe b a → a = b)) := by
    apply List.Pairwise.imp_of_mem _ (List.sorted_insertionSort nameLe l2)
    intro a b ha hb hab
    have ha2 : a ∈ l2 := (List.perm_insertionSort nameLe l2).mem_iff.mp ha
    have hb2 : b ∈ l2 := (List.perm_insertionSort nameLe l2).mem_iff.mp hb
    exact ⟨hab, fun hba => hinj2 ha2 hb2 (name_eq_of_nameLe hab hba)⟩
  have hperm : (l1.insertionSort nameLe).Perm (l2.insertionSort nameLe) :=
    ((List.perm_insertionSort nameLe l1).trans hp).trans (List.perm_insertionSort nameLe l2).symm
  exact List.eq_of_perm_of_sorted hperm hs1 hs2

theorem businessFiles_perm {dir1 dir2 : List BrrmsFile} (hp : dir1.Perm dir2) (businessId : String) :
    (businessFiles dir1 businessId).Perm (businessFiles dir2 businessId) := by
  unfold businessFiles
  exact (hp.filter _).filter _

theorem businessFiles_names_nodup (dir : List BrrmsFile) (businessId : String)
    (hn : (dir.map (fun f => f.name)).Nodup) :
    ((businessFiles dir businessId).map (fun f => f.name)).Nodup := by
  unfold businessFiles
  exact hn.sublist (((List.filter_sublist _).trans (List.filter_sublist _)).map _)

/-- C12: two runs of `computeNavPerToken` over the same set of files, listed by
the directory in any two orders, return the same result, the same NAV or the
same failure, for every fund key, window length and supply; the file names of
a directory are distinct. -/
theorem computeNavPerToken_order_independent (dir1 dir2 : List BrrmsFile) (fundKey : String)
    (months : Int) (totalSupply : Int) (hperm : dir1.Perm dir2)
    (hnames : (dir1.map (fun f => f.name)).Nodup) :
    computeNavPerToken dir1 fundKey months totalSupply =
      computeNavPerToken dir2 fundKey months totalSupply := by
  have hbf := businessFiles_perm hperm ("fund" ++ fundKey)
  have hsort : sortedDesc (businessFiles dir1 ("fund" ++ fundKey)) =
      sortedDesc (businessFiles dir2 ("fund" ++ fundKey)) := by
    unfold sortedDesc
    rw [insertionSort_eq_of_perm _ _ hbf (businessFiles_names_nodup dir1 _ hnames)]
  unfold computeNavPerToken selectWindow
  rw [hsort, hbf.length_eq]

/-- C12, witness: the two files of the example directory listed in the two
possible orders give the same result. -/
theorem computeNavPerToken_order_independent_witness :
    computeNavPerToken navPercentDir "I" 2 1000000 =
      computeNavPerToken navPercentDir.reverse "I" 2 1000000 :=
  computeNavPerToken_order_independent navPercentDir navPercentDir.reverse "I" 2 1000000
    (List.reverse_perm navPercentDir).symm (by decide)
